import Mathlib

/-!
Verification of the liblog / logd excerpt: a shallow embedding of
`liblog/logger_write.cpp`, `liblog/logd_writer.cpp`, `logd/main.cpp`,
`logd/LogAudit.cpp` and the `logpersist` shell tool, together with theorems
about the client write path, the logd control socket, and the audit line
splitter.  OS interactions (syscall results, property reads) are passed in
explicitly as environment records, so every definition is executable.
-/

set_option maxRecDepth 4000

/- ### Numeric constants

Errno values are the standard Linux ones; the `AID_*` ids come from
`android_filesystem_config.h`, which is outside this excerpt (their exact
values never matter below, only that they are distinct). -/

def EPERM : Nat := 1
def EBADF : Nat := 9
def EAGAIN : Nat := 11
def EINVAL : Nat := 22
def ETIME : Nat := 62

def AID_ROOT : Nat := 0
def AID_SYSTEM : Nat := 1000
def AID_LOG : Nat := 1007
def AID_LOGD : Nat := 1036
def AID_SECURITY_LOG_WRITER : Nat := 1091

/-- Modelled from the spec: the per-record payload cap
(`LOGGER_ENTRY_MAX_PAYLOAD`, defined in a liblog header outside this
excerpt); the spec bounds a record payload by 4096 bytes (section 3). -/
def LOGGER_ENTRY_MAX_PAYLOAD : Nat := 4096

/-- Modelled from the spec: size in bytes of the packed ingest datagram
header `android_log_header_t` (u8 partition id, u16 tid, u32 sec, u32 nsec;
spec section 6), whose definition is in a header outside this excerpt. -/
def logHeaderSize : Nat := 11

/-- Modelled from the spec: size in bytes of a packed
`android_log_event_int_t` (le32 tag, u8 type, le32 value; the binary-event
framing of spec section 6), defined in a header outside this excerpt. -/
def eventIntSize : Nat := 9

/- ### Log ids (`log_id_t`)

`LOG_ID_DEFAULT` (0x7FFFFFFF) is a pseudo-id accepted by the text API and
mapped to `main` before submission. -/

inductive LogId where
  | main
  | radio
  | events
  | system
  | crash
  | stats
  | security
  | kernel
  | defaultBuf
deriving DecidableEq

/- ### Caller credentials and `check_log_uid_permissions`
(`liblog/logger_write.cpp` lines 70-109)

`groups` models the supplementary group list returned by `getgroups`; a
failing `getgroups` is the empty list (the code returns `-EPERM` when
`num_groups <= 0`).  The `calloc` failure path (`-ENOMEM`) is an allocation
failure outside this model. -/

structure Cred where
  uid : Nat
  euid : Nat
  gid : Nat
  egid : Nat
  groups : List Nat
deriving DecidableEq

/-- Test against the three ids accepted directly
(`AID_SYSTEM`, `AID_ROOT`, `AID_LOG`). -/
def inWriterIds (id : Nat) : Bool :=
  id = AID_SYSTEM || id = AID_ROOT || id = AID_LOG

/-- Embedding of `check_log_uid_permissions`: uid, then euid, then gid, then
egid against the writer ids, then the supplementary groups against
`AID_LOG` / `AID_SECURITY_LOG_WRITER` (the C loop scans the array from the
end; `List.any` is equivalent). -/
def check_log_uid_permissions (c : Cred) : Int :=
  if inWriterIds c.uid = true then 0
  else if inWriterIds c.euid = true then 0
  else if inWriterIds c.gid = true then 0
  else if inWriterIds c.egid = true then 0
  else if c.groups.length = 0 then -(EPERM : Int)
  else if c.groups.any (fun g => g = AID_LOG || g = AID_SECURITY_LOG_WRITER) then 0
  else -(EPERM : Int)

/-- The approved set of principals for security-partition writes, as the
spec words it: uid or euid in {system, root, log}, or gid or egid in that
set, or a supplementary group of `AID_LOG` or `AID_SECURITY_LOG_WRITER`. -/
def approvedSecurityPrincipal (c : Cred) : Bool :=
  inWriterIds c.uid || inWriterIds c.euid || inWriterIds c.gid || inWriterIds c.egid ||
    c.groups.any (fun g => g = AID_LOG || g = AID_SECURITY_LOG_WRITER)

lemma check_of_approved (c : Cred) (h : approvedSecurityPrincipal c = true) :
    check_log_uid_permissions c = 0 := by
  unfold approvedSecurityPrincipal at h
  unfold check_log_uid_permissions
  simp only [Bool.or_eq_true] at h
  split_ifs with h1 h2 h3 h4 h5 h6 <;> try rfl
  · exfalso
    rcases h with (((h | h) | h) | h) | h
    · exact h1 h
    · exact h2 h
    · exact h3 h
    · exact h4 h
    · rw [List.length_eq_zero] at h5
      simp [h5] at h
  · exfalso
    rcases h with (((h | h) | h) | h) | h
    · exact h1 h
    · exact h2 h
    · exact h3 h
    · exact h4 h
    · exact h6 h

lemma check_of_not_approved (c : Cred) (h : approvedSecurityPrincipal c = false) :
    check_log_uid_permissions c = -(EPERM : Int) := by
  unfold approvedSecurityPrincipal at h
  unfold check_log_uid_permissions
  simp only [Bool.or_eq_false_iff] at h
  obtain ⟨⟨⟨⟨h1, h2⟩, h3⟩, h4⟩, h5⟩ := h
  simp [h1, h2, h3, h4, h5]

/- ### The `LogdWrite` truncation loop
(`liblog/logd_writer.cpp` lines 172-183)

The loop accumulates iovec lengths into `payloadSize`; once the running sum
exceeds the cap it shortens the current iovec by the excess, keeps it only
when the shortened length is nonzero, and stops, dropping all following
iovecs. -/

def truncVecs (cap : Nat) : List Nat → Nat → List Nat
  | [], _ => []
  | l :: ls, acc =>
    if acc + l > cap then
      let kept := l - (acc + l - cap)
      if kept ≠ 0 then [kept] else []
    else
      l :: truncVecs cap ls (acc + l)

lemma truncVecs_sum (cap : Nat) (ls : List Nat) : ∀ acc : Nat, acc ≤ cap →
    acc + (truncVecs cap ls acc).sum = min (acc + ls.sum) cap := by
  induction ls with
  | nil =>
    intro acc h
    simp only [truncVecs, List.sum_nil, List.sum_cons]
    omega
  | cons l ls ih =>
    intro acc h
    simp only [truncVecs, List.sum_cons]
    by_cases hc : acc + l > cap
    · simp only [if_pos hc]
      by_cases hk : l - (acc + l - cap) ≠ 0
      · simp only [if_pos hk, List.sum_cons, List.sum_nil]
        omega
      · simp only [if_neg hk, List.sum_nil]
        omega
    · simp only [if_neg hc]
      simp only [List.sum_cons]
      have := ih (acc + l) (by omega)
      omega

/- ### `LogdWrite` (`liblog/logd_writer.cpp` lines 119-205)

The OS interactions of one call are collected in a `LogdEnv`: whether the
socket singleton yielded a valid fd, the caller's uid, whether a liblog
INFO event is loggable, and the results of the up-to-three `writev` calls
(the dropped-count report, the record, and the post-reconnect retry). -/

/-- Result of a `writev` call: `ok n` when it wrote `n` bytes, `err e`
when it returned -1 with `errno = e`. -/
inductive WritevRes where
  | ok (n : Nat)
  | err (errno : Nat)
deriving DecidableEq

structure LogdEnv where
  sockValid : Bool
  uid : Nat
  liblogLoggable : Bool
  reportWritev : WritevRes
  recordWritev1 : WritevRes
  recordWritev2 : WritevRes
deriving DecidableEq

/-- Observable outcome of one `LogdWrite` call: the returned value, the new
value of the static `dropped` counter, how many drops were successfully
reported upstream during the call, whether this call counted a new failed
record write into `dropped`, the number of `writev` invocations on the
socket, and the payload iovec lengths of the record datagram when one was
sent. -/
structure LogdOutcome where
  ret : Int
  dropped : Nat
  reported : Nat
  failed : Nat
  writevCalls : Nat
  sentRecordVecs : Option (List Nat)
deriving DecidableEq

/-- Embedding of `LogdWrite`.  `droppedIn` is the value of the static
atomic `dropped` counter on entry.  Control flow follows the source: the
socket check, the `AID_LOGD` self-write check, the unconditional
exchange of `dropped` with 0, the conditional report of the snapshot (added
back if its `writev` does not return exactly header+event bytes), the
truncation loop, the record `writev` with one reconnect-and-retry when the
error is not `EAGAIN`, the `-errno` conversion, and the final adjustment
that either subtracts the header size or counts a drop. -/
def LogdWrite (env : LogdEnv) (droppedIn : Nat) (logId : LogId) (vecLens : List Nat) :
    LogdOutcome :=
  if env.sockValid = false then
    ⟨-(EBADF : Int), droppedIn, 0, 0, 0, none⟩
  else if env.uid = AID_LOGD then
    ⟨0, droppedIn, 0, 0, 0, none⟩
  else
    let snapshot := droppedIn
    let afterReport : Nat × Nat × Nat :=
      if snapshot ≠ 0 ∧ env.liblogLoggable = true then
        if env.reportWritev = WritevRes.ok (logHeaderSize + eventIntSize) then
          (0, snapshot, 1)
        else
          (snapshot, 0, 1)
      else (0, 0, 0)
    let dropped1 := afterReport.1
    let reported := afterReport.2.1
    let reportCalls := afterReport.2.2
    let sent := truncVecs LOGGER_ENTRY_MAX_PAYLOAD vecLens 0
    let final : WritevRes × Nat :=
      match env.recordWritev1 with
      | WritevRes.ok n => (WritevRes.ok n, 1)
      | WritevRes.err e =>
        if e ≠ EAGAIN then (env.recordWritev2, 2) else (WritevRes.err e, 1)
    let ret0 : Int :=
      match final.1 with
      | WritevRes.ok n => (n : Int)
      | WritevRes.err e => -(e : Int)
    if ret0 > (logHeaderSize : Int) then
      ⟨ret0 - (logHeaderSize : Int), dropped1, reported, 0, reportCalls + final.2, some sent⟩
    else if ret0 < 0 then
      ⟨ret0, dropped1 + 1, reported, 1, reportCalls + final.2, some sent⟩
    else
      ⟨ret0, dropped1, reported, 0, reportCalls + final.2, some sent⟩

/- ### `write_to_log` (`liblog/logger_write.cpp` lines 199-234)

The record of where a write was rejected before reaching `LogdWrite`;
`WriteResult.logd` is `some o` exactly when `LogdWrite` ran (the parallel
`PmsgWrite` mirror is not modelled; its return value is discarded by the
source). -/

inductive RejectPoint where
  | kernelId
  | shortTag
  | uidPerm
  | securityDisabled
deriving DecidableEq

structure WriteEnv where
  cred : Cred
  securityEnabled : Bool
  logd : LogdEnv
  droppedIn : Nat
deriving DecidableEq

structure WriteResult where
  ret : Int
  rejectedAt : Option RejectPoint
  logd : Option LogdOutcome
deriving DecidableEq

/-- Embedding of `write_to_log`: kernel writes are refused with `-EINVAL`;
security writes check the 4-byte tag slot, then uid permissions, then
`__android_log_security()` (the `securityEnabled` oracle); events and
stats writes check the 4-byte tag slot; everything surviving is handed to
`LogdWrite`. -/
def write_to_log (env : WriteEnv) (logId : LogId) (vecLens : List Nat) : WriteResult :=
  if logId = LogId.kernel then
    ⟨-(EINVAL : Int), some RejectPoint.kernelId, none⟩
  else if logId = LogId.security then
    if vecLens.headD 0 < 4 then
      ⟨-(EINVAL : Int), some RejectPoint.shortTag, none⟩
    else
      let p := check_log_uid_permissions env.cred
      if p < 0 then
        ⟨p, some RejectPoint.uidPerm, none⟩
      else if env.securityEnabled = false then
        ⟨-(EPERM : Int), some RejectPoint.securityDisabled, none⟩
      else
        let o := LogdWrite env.logd env.droppedIn logId vecLens
        ⟨o.ret, none, some o⟩
  else if logId = LogId.events ∨ logId = LogId.stats then
    if vecLens.headD 0 < 4 then
      ⟨-(EINVAL : Int), some RejectPoint.shortTag, none⟩
    else
      let o := LogdWrite env.logd env.droppedIn logId vecLens
      ⟨o.ret, none, some o⟩
  else
    let o := LogdWrite env.logd env.droppedIn logId vecLens
    ⟨o.ret, none, some o⟩

/- ### Ledger of the `dropped` counter over a sequence of calls -/

/-- Run `LogdWrite` over a list of per-call environments, threading the
`dropped` counter; returns the final counter, the total drops successfully
reported, and the total failed record writes. -/
def runLogdTrace (logId : LogId) (vecLens : List Nat) :
    List LogdEnv → Nat → Nat × Nat × Nat
  | [], d => (d, 0, 0)
  | e :: es, d =>
    let o := LogdWrite e d logId vecLens
    let rest := runLogdTrace logId vecLens es o.dropped
    (rest.1, o.reported + rest.2.1, o.failed + rest.2.2)

lemma logd_step_ledger (env : LogdEnv) (d : Nat) (logId : LogId) (lens : List Nat)
    (h : env.liblogLoggable = true) :
    (LogdWrite env d logId lens).dropped + (LogdWrite env d logId lens).reported
      = d + (LogdWrite env d logId lens).failed := by
  obtain ⟨sv, uid, lg, rw0, r1, r2⟩ := env
  dsimp only at h
  subst h
  cases sv
  · simp [LogdWrite]
  · simp only [LogdWrite]
    repeat' split
    all_goals simp_all
    all_goals omega

/-- C9 (amended): provided every call observes liblog INFO events as
loggable, the dropped-message ledger balances: over any sequence of
`LogdWrite` calls, final pending counter plus total successfully reported
drops equals the initial counter plus the total number of failed record
writes.  (The amendment is needed because the source exchanges the counter
to zero before testing loggability, discarding the snapshot when the
report is suppressed.) -/
theorem logdwrite_drop_ledger (logId : LogId) (lens : List Nat) (envs : List LogdEnv)
    (d0 : Nat) (h : ∀ e ∈ envs, e.liblogLoggable = true) :
    (runLogdTrace logId lens envs d0).1 + (runLogdTrace logId lens envs d0).2.1
      = d0 + (runLogdTrace logId lens envs d0).2.2 := by
  induction envs generalizing d0 with
  | nil => simp [runLogdTrace]
  | cons e es ih =>
    simp only [runLogdTrace]
    have he : e.liblogLoggable = true := h e (List.mem_cons_self e es)
    have hstep := logd_step_ledger e d0 logId lens he
    have htail := ih (LogdWrite e d0 logId lens).dropped
      (fun x hx => h x (List.mem_cons_of_mem e hx))
    omega

/-- Witness for C9: a two-call trace, both calls loggable, the first record
write failing with `ECONNREFUSED` and the second succeeding: the ledger
balances (pending 0, reported 1, failed 1). -/
theorem logdwrite_drop_ledger_witness :
    (runLogdTrace LogId.main [5]
        [⟨true, 0, true, WritevRes.ok 20, WritevRes.err 111, WritevRes.err 111⟩,
         ⟨true, 0, true, WritevRes.ok 20, WritevRes.ok 20, WritevRes.ok 20⟩] 0).1
      + (runLogdTrace LogId.main [5]
        [⟨true, 0, true, WritevRes.ok 20, WritevRes.err 111, WritevRes.err 111⟩,
         ⟨true, 0, true, WritevRes.ok 20, WritevRes.ok 20, WritevRes.ok 20⟩] 0).2.1
      = 0 + (runLogdTrace LogId.main [5]
        [⟨true, 0, true, WritevRes.ok 20, WritevRes.err 111, WritevRes.err 111⟩,
         ⟨true, 0, true, WritevRes.ok 20, WritevRes.ok 20, WritevRes.ok 20⟩] 0).2.2 :=
  logdwrite_drop_ledger LogId.main [5] _ 0 (by decide)

/-- Counterexample for C9 as stated: when the first call fails its record
write (counter becomes 1) and on the second call liblog INFO events are not
loggable, the exchanged snapshot is discarded: afterwards pending = 0 and
reported = 0 while one write failed, so reported + pending does not equal
the total of failed writes. -/
theorem logdwrite_drop_ledger_counterexample :
    ¬ ((runLogdTrace LogId.main [5]
          [⟨true, 0, true, WritevRes.ok 20, WritevRes.err 111, WritevRes.err 111⟩,
           ⟨true, 0, false, WritevRes.ok 20, WritevRes.ok 20, WritevRes.ok 20⟩] 0).1
        + (runLogdTrace LogId.main [5]
          [⟨true, 0, true, WritevRes.ok 20, WritevRes.err 111, WritevRes.err 111⟩,
           ⟨true, 0, false, WritevRes.ok 20, WritevRes.ok 20, WritevRes.ok 20⟩] 0).2.1
        = 0 + (runLogdTrace LogId.main [5]
          [⟨true, 0, true, WritevRes.ok 20, WritevRes.err 111, WritevRes.err 111⟩,
           ⟨true, 0, false, WritevRes.ok 20, WritevRes.ok 20, WritevRes.ok 20⟩] 0).2.2) := by
  decide

/-- C2: whenever the record datagram is actually built (socket available
and the caller is not logd itself), the payload iovec lengths placed after
the header are the truncated list, whose total is exactly
`min (sum of the request lengths) LOGGER_ENTRY_MAX_PAYLOAD`, hence never
above the per-record cap. -/
theorem logdwrite_payload_cap (env : LogdEnv) (d : Nat) (logId : LogId) (lens : List Nat)
    (hs : env.sockValid = true) (hu : env.uid ≠ AID_LOGD) :
    (LogdWrite env d logId lens).sentRecordVecs
        = some (truncVecs LOGGER_ENTRY_MAX_PAYLOAD lens 0) ∧
    (truncVecs LOGGER_ENTRY_MAX_PAYLOAD lens 0).sum
        = min lens.sum LOGGER_ENTRY_MAX_PAYLOAD ∧
    (truncVecs LOGGER_ENTRY_MAX_PAYLOAD lens 0).sum ≤ LOGGER_ENTRY_MAX_PAYLOAD := by
  refine ⟨?_, ?_, ?_⟩
  · obtain ⟨sv, uid, lg, rw0, r1, r2⟩ := env
    dsimp only at hs hu
    subst hs
    simp only [LogdWrite]
    repeat' split
    all_goals simp_all
  · have := truncVecs_sum LOGGER_ENTRY_MAX_PAYLOAD lens 0 (Nat.zero_le _)
    omega
  · have := truncVecs_sum LOGGER_ENTRY_MAX_PAYLOAD lens 0 (Nat.zero_le _)
    omega

/-- Witness for C2: a single 5000-byte iovec is truncated to the cap. -/
theorem logdwrite_payload_cap_witness :
    (LogdWrite ⟨true, 0, true, WritevRes.ok 20, WritevRes.ok 20, WritevRes.ok 20⟩ 0
        LogId.main [5000]).sentRecordVecs
        = some (truncVecs LOGGER_ENTRY_MAX_PAYLOAD [5000] 0) ∧
    (truncVecs LOGGER_ENTRY_MAX_PAYLOAD [5000] 0).sum
        = min ([5000] : List Nat).sum LOGGER_ENTRY_MAX_PAYLOAD ∧
    (truncVecs LOGGER_ENTRY_MAX_PAYLOAD [5000] 0).sum ≤ LOGGER_ENTRY_MAX_PAYLOAD :=
  logdwrite_payload_cap ⟨true, 0, true, WritevRes.ok 20, WritevRes.ok 20, WritevRes.ok 20⟩
    0 LogId.main [5000] rfl (by decide)

set_option maxHeartbeats 1000000 in
/-- C3: the return value of `LogdWrite` when a record datagram is sent:
a `writev` that wrote more than the header — on the first attempt or on
the post-reconnect retry — returns the bytes written minus the header
size; a record accepted in full (header plus the whole truncated payload,
the payload nonempty), again on either attempt, returns exactly the
payload size sent; a `writev` failure (first attempt `EAGAIN`, or both
attempts failing) returns the negated errno of the failing attempt, a
negative value carrying the reason. -/
theorem logdwrite_return_value (env : LogdEnv) (d : Nat) (logId : LogId) (lens : List Nat)
    (hs : env.sockValid = true) (hu : env.uid ≠ AID_LOGD) :
    (∀ n : Nat, env.recordWritev1 = WritevRes.ok n → logHeaderSize < n →
        (LogdWrite env d logId lens).ret = (n : Int) - (logHeaderSize : Int)) ∧
    (env.recordWritev1
          = WritevRes.ok (logHeaderSize + (truncVecs LOGGER_ENTRY_MAX_PAYLOAD lens 0).sum) →
      0 < (truncVecs LOGGER_ENTRY_MAX_PAYLOAD lens 0).sum →
        (LogdWrite env d logId lens).ret
          = ((truncVecs LOGGER_ENTRY_MAX_PAYLOAD lens 0).sum : Int)) ∧
    (∀ e n : Nat, env.recordWritev1 = WritevRes.err e → e ≠ EAGAIN →
        env.recordWritev2 = WritevRes.ok n → logHeaderSize < n →
        (LogdWrite env d logId lens).ret = (n : Int) - (logHeaderSize : Int)) ∧
    (∀ e : Nat, env.recordWritev1 = WritevRes.err e → e ≠ EAGAIN →
        env.recordWritev2
          = WritevRes.ok (logHeaderSize + (truncVecs LOGGER_ENTRY_MAX_PAYLOAD lens 0).sum) →
        0 < (truncVecs LOGGER_ENTRY_MAX_PAYLOAD lens 0).sum →
        (LogdWrite env d logId lens).ret
          = ((truncVecs LOGGER_ENTRY_MAX_PAYLOAD lens 0).sum : Int)) ∧
    (∀ e : Nat, env.recordWritev1 = WritevRes.err e → e = EAGAIN →
        (LogdWrite env d logId lens).ret = -(e : Int) ∧
        (LogdWrite env d logId lens).ret < 0) ∧
    (∀ e1 e2 : Nat, env.recordWritev1 = WritevRes.err e1 → e1 ≠ EAGAIN →
        env.recordWritev2 = WritevRes.err e2 → 0 < e2 →
        (LogdWrite env d logId lens).ret = -(e2 : Int) ∧
        (LogdWrite env d logId lens).ret < 0) := by
  obtain ⟨sv, uid, lg, rw0, r1, r2⟩ := env
  dsimp only at hs hu
  subst hs
  have part1 : ∀ n : Nat, r1 = WritevRes.ok n → logHeaderSize < n →
      (LogdWrite ⟨true, uid, lg, rw0, r1, r2⟩ d logId lens).ret
        = (n : Int) - (logHeaderSize : Int) := by
    intro n h1 hn
    subst h1
    simp only [LogdWrite]
    repeat' split
    all_goals simp_all
  have part1r : ∀ e n : Nat, r1 = WritevRes.err e → e ≠ EAGAIN → r2 = WritevRes.ok n →
      logHeaderSize < n →
      (LogdWrite ⟨true, uid, lg, rw0, r1, r2⟩ d logId lens).ret
        = (n : Int) - (logHeaderSize : Int) := by
    intro e n h1 hne h2 hn
    subst h1
    subst h2
    simp only [LogdWrite]
    repeat' split
    all_goals simp_all
  refine ⟨fun n h1 => part1 n h1, ?_, fun e n h1 hne h2 => part1r e n h1 hne h2, ?_, ?_, ?_⟩
  · intro h1 hsum
    dsimp only at h1
    have := part1 _ h1 (by omega)
    rw [this]
    omega
  · intro e h1 hne h2 hsum
    dsimp only at h1 h2
    have := part1r e _ h1 hne h2 (by omega)
    rw [this]
    omega
  · intro e h1 he
    dsimp only at h1
    subst h1
    subst he
    simp only [LogdWrite]
    repeat' split
    all_goals simp_all [EAGAIN]
    all_goals omega
  · intro e1 e2 h1 hne h2 he2
    dsimp only at h1 h2
    subst h1
    subst h2
    simp only [LogdWrite]
    repeat' split
    all_goals simp_all
    all_goals omega

/-- Witness for C3: a full acceptance of a 5-byte payload returns 5 on the
first attempt and also when it succeeds only on the post-reconnect retry,
and a double `writev` failure with errno 111 returns -111. -/
theorem logdwrite_return_value_witness :
    ((LogdWrite ⟨true, 0, true, WritevRes.ok 20, WritevRes.ok 16, WritevRes.ok 16⟩ 0
        LogId.main [5]).ret = ((16 : Nat) : Int) - (logHeaderSize : Int)) ∧
    ((LogdWrite ⟨true, 0, true, WritevRes.ok 20, WritevRes.err 111, WritevRes.ok 16⟩ 0
        LogId.main [5]).ret = ((16 : Nat) : Int) - (logHeaderSize : Int)) ∧
    ((LogdWrite ⟨true, 0, true, WritevRes.ok 20, WritevRes.err 111, WritevRes.err 111⟩ 0
        LogId.main [5]).ret = -((111 : Nat) : Int)) :=
  ⟨(logdwrite_return_value ⟨true, 0, true, WritevRes.ok 20, WritevRes.ok 16, WritevRes.ok 16⟩
      0 LogId.main [5] rfl (by decide)).1 16 rfl (by decide),
   (logdwrite_return_value ⟨true, 0, true, WritevRes.ok 20, WritevRes.err 111, WritevRes.ok 16⟩
      0 LogId.main [5] rfl (by decide)).2.2.1 111 16 rfl (by decide) rfl (by decide),
   ((logdwrite_return_value ⟨true, 0, true, WritevRes.ok 20, WritevRes.err 111, WritevRes.err 111⟩
      0 LogId.main [5] rfl (by decide)).2.2.2.2.2 111 111 rfl (by decide) rfl (by decide)).1⟩

/-- C8 (amended): provided the logd socket is available, a `LogdWrite`
call from a process whose uid is `AID_LOGD` returns 0, performs no
`writev`, sends no record, and leaves the dropped counter untouched.
(The amendment conditions on the socket being available: the fd check
precedes the uid check in the source.) -/
theorem logdwrite_logd_uid (env : LogdEnv) (d : Nat) (logId : LogId) (lens : List Nat)
    (hs : env.sockValid = true) (hu : env.uid = AID_LOGD) :
    LogdWrite env d logId lens = ⟨0, d, 0, 0, 0, none⟩ := by
  unfold LogdWrite
  simp [hs, hu]

/-- Witness for C8: a concrete call from uid `AID_LOGD` with the socket
available. -/
theorem logdwrite_logd_uid_witness :
    LogdWrite ⟨true, AID_LOGD, true, WritevRes.ok 20, WritevRes.ok 20, WritevRes.ok 20⟩ 3
        LogId.main [5] = ⟨0, 3, 0, 0, 0, none⟩ :=
  logdwrite_logd_uid _ 3 LogId.main [5] rfl rfl

/-- Counterexample for C8 as stated: when the socket singleton could not be
opened, a call from uid `AID_LOGD` returns `-EBADF`, not 0, because the fd
check precedes the uid check. -/
theorem logdwrite_logd_uid_counterexample :
    (LogdWrite ⟨false, AID_LOGD, true, WritevRes.ok 20, WritevRes.ok 20, WritevRes.ok 20⟩ 0
        LogId.main [5]).ret = -(EBADF : Int) ∧ -(EBADF : Int) ≠ (0 : Int) := by
  decide

/-- C1 (amended): for a security-partition write whose first iovec holds at
least the 4-byte tag, the write is rejected with `-EPERM` whenever the
caller is not an approved principal; an approved caller with security
logging enabled passes the permission check (which returns 0) and the
record proceeds to `LogdWrite`.  (The amendment restricts to well-formed
first iovecs: the tag-length check precedes the permission check in the
source, so a short first iovec is rejected with `-EINVAL` regardless of
the principal.) -/
theorem security_write_permissions (env : WriteEnv) (lens : List Nat)
    (htag : 4 ≤ lens.headD 0) :
    (approvedSecurityPrincipal env.cred = false →
        write_to_log env LogId.security lens
          = ⟨-(EPERM : Int), some RejectPoint.uidPerm, none⟩) ∧
    (approvedSecurityPrincipal env.cred = true → env.securityEnabled = true →
        check_log_uid_permissions env.cred = 0 ∧
        write_to_log env LogId.security lens
          = ⟨(LogdWrite env.logd env.droppedIn LogId.security lens).ret, none,
             some (LogdWrite env.logd env.droppedIn LogId.security lens)⟩) := by
  have hk : ¬ (LogId.security = LogId.kernel) := by decide
  have htag' : ¬ (lens.headD 0 < 4) := by omega
  constructor
  · intro hnap
    have hp := check_of_not_approved env.cred hnap
    simp only [write_to_log, if_neg hk, if_pos rfl, if_neg htag', hp]
    rw [if_pos (show -(EPERM : Int) < 0 by decide)]
    simp
  · intro hap hse
    have hp := check_of_approved env.cred hap
    refine ⟨hp, ?_⟩
    simp only [write_to_log, if_neg hk, if_pos rfl, if_neg htag', hp, hse]
    rw [if_neg (show ¬ ((0 : Int) < 0) by decide)]
    simp

/-- Witness for C1: uid `AID_SYSTEM` with security logging enabled passes
the check and the record reaches `LogdWrite`. -/
theorem security_write_permissions_witness :
    check_log_uid_permissions ⟨1000, 1000, 1000, 1000, []⟩ = 0 ∧
    write_to_log ⟨⟨1000, 1000, 1000, 1000, []⟩, true,
        ⟨true, 0, true, WritevRes.ok 20, WritevRes.ok 20, WritevRes.ok 20⟩, 0⟩
        LogId.security [4]
      = ⟨(LogdWrite ⟨true, 0, true, WritevRes.ok 20, WritevRes.ok 20, WritevRes.ok 20⟩ 0
            LogId.security [4]).ret, none,
         some (LogdWrite ⟨true, 0, true, WritevRes.ok 20, WritevRes.ok 20, WritevRes.ok 20⟩ 0
            LogId.security [4])⟩ :=
  (security_write_permissions ⟨⟨1000, 1000, 1000, 1000, []⟩, true,
      ⟨true, 0, true, WritevRes.ok 20, WritevRes.ok 20, WritevRes.ok 20⟩, 0⟩
    [4] (by decide)).2 (by decide) rfl

/-- Counterexample for C1 as stated: a security write from an unapproved
principal whose first iovec is shorter than 4 bytes is rejected with
`-EINVAL`, not `-EPERM`. -/
theorem security_write_permissions_counterexample :
    approvedSecurityPrincipal ⟨9999, 9999, 9999, 9999, []⟩ = false ∧
    (write_to_log ⟨⟨9999, 9999, 9999, 9999, []⟩, true,
        ⟨true, 0, true, WritevRes.ok 20, WritevRes.ok 20, WritevRes.ok 20⟩, 0⟩
      LogId.security [2]).ret = -(EINVAL : Int) ∧
    -(EINVAL : Int) ≠ -(EPERM : Int) := by
  decide

/- ### The text-log entry points
(`liblog/logger_write.cpp` lines 337-383) -/

/-- Embedding of the buffer-id mapping in
`__android_log_logd_logger_with_timestamp`: `LOG_ID_DEFAULT` is replaced by
`LOG_ID_MAIN` before submission. -/
def logd_logger_buffer (buffer_id : LogId) : LogId :=
  if buffer_id = LogId.defaultBuf then LogId.main else buffer_id

/-- Embedding of `__android_log_logd_logger_with_timestamp` in the default
configuration (no `ro.log.file_logger.path` override): builds the three
text iovecs (one priority byte, the NUL-terminated tag, the NUL-terminated
message) and calls `write_to_log` on the mapped buffer id. -/
def logd_logger_with_timestamp (env : WriteEnv) (buffer_id : LogId)
    (tagLen msgLen : Nat) : WriteResult :=
  write_to_log env (logd_logger_buffer buffer_id) [1, tagLen + 1, msgLen + 1]

/-- Embedding of the dispatch of `__android_log_write_log_message` with the
default logger function: any buffer id outside
{default, main, system, radio, crash} is refused by returning without
submitting (`none`); otherwise the record is handed to the logd logger.
(The tag-defaulting and abort-message side effects do not affect
submission.) -/
def write_log_message (env : WriteEnv) (buffer_id : LogId)
    (tagLen msgLen : Nat) : Option WriteResult :=
  if buffer_id ≠ LogId.defaultBuf ∧ buffer_id ≠ LogId.main ∧ buffer_id ≠ LogId.system ∧
      buffer_id ≠ LogId.radio ∧ buffer_id ≠ LogId.crash then
    none
  else
    some (logd_logger_with_timestamp env buffer_id tagLen msgLen)

/-- Modelled from the spec: the `LogStore.log` validation of section 4.1
(the store lives in logd source outside this excerpt): a partition id
outside the known set 0..7 is rejected with InvalidArgument, as is a
payload of zero length or one exceeding the per-record cap. -/
def LogStore.log (partition : Nat) (payloadLen : Nat) : Except Nat Nat :=
  if 7 < partition then Except.error EINVAL
  else if payloadLen = 0 ∨ LOGGER_ENTRY_MAX_PAYLOAD < payloadLen then Except.error EINVAL
  else Except.ok payloadLen

/-- C4: kernel-partition writes are rejected by `write_to_log` with
`-EINVAL`; the text entry point refuses every buffer id outside
{default, main, system, radio, crash}, and any record it does submit goes
to one of the known text partitions (default being mapped to main); and the
store-side validation rejects unknown partitions and zero-length or
oversized payloads with InvalidArgument. -/
theorem unknown_partition_rejected :
    (∀ (env : WriteEnv) (lens : List Nat),
        write_to_log env LogId.kernel lens
          = ⟨-(EINVAL : Int), some RejectPoint.kernelId, none⟩) ∧
    (∀ (env : WriteEnv) (id : LogId) (t m : Nat),
        id ≠ LogId.defaultBuf → id ≠ LogId.main → id ≠ LogId.system →
        id ≠ LogId.radio → id ≠ LogId.crash →
        write_log_message env id t m = none) ∧
    (∀ (env : WriteEnv) (id : LogId) (t m : Nat) (r : WriteResult),
        write_log_message env id t m = some r →
        logd_logger_buffer id = LogId.main ∨ logd_logger_buffer id = LogId.system ∨
          logd_logger_buffer id = LogId.radio ∨ logd_logger_buffer id = LogId.crash) ∧
    (∀ p len : Nat, 7 < p ∨ len = 0 ∨ LOGGER_ENTRY_MAX_PAYLOAD < len →
        LogStore.log p len = Except.error EINVAL) := by
  refine ⟨?_, ?_, ?_, ?_⟩
  · intro env lens
    simp [write_to_log]
  · intro env id t m h1 h2 h3 h4 h5
    simp [write_log_message, h1, h2, h3, h4, h5]
  · intro env id t m r h
    cases id <;> simp_all [write_log_message, logd_logger_buffer]
  · intro p len h
    unfold LogStore.log
    split_ifs with h1 h2
    · rfl
    · rfl
    · exfalso
      rcases h with h | h
      · omega
      · exact h2 h

/-- Witness for C4: the events partition is refused by the text entry
point; kernel writes return `-EINVAL`; partition 9 is rejected by the
store. -/
theorem unknown_partition_rejected_witness :
    write_log_message ⟨⟨0, 0, 0, 0, []⟩, true,
        ⟨true, 0, true, WritevRes.ok 20, WritevRes.ok 20, WritevRes.ok 20⟩, 0⟩
        LogId.events 1 1 = none ∧
    write_to_log ⟨⟨0, 0, 0, 0, []⟩, true,
        ⟨true, 0, true, WritevRes.ok 20, WritevRes.ok 20, WritevRes.ok 20⟩, 0⟩
        LogId.kernel [5] = ⟨-(EINVAL : Int), some RejectPoint.kernelId, none⟩ ∧
    LogStore.log 9 5 = Except.error EINVAL :=
  ⟨unknown_partition_rejected.2.1 _ LogId.events 1 1
      (by decide) (by decide) (by decide) (by decide) (by decide),
   unknown_partition_rejected.1 _ [5],
   unknown_partition_rejected.2.2.2 9 5 (by omega)⟩

/-- C5: for the binary-event partitions (events, stats, security), a first
iovec shorter than 4 bytes makes `write_to_log` return `-EINVAL` with
nothing handed to `LogdWrite`; with a first iovec of at least 4 bytes the
tag check never fires, and for events and stats the record proceeds
directly to `LogdWrite`. -/
theorem binary_event_tag_check (env : WriteEnv) (logId : LogId) (lens : List Nat)
    (hid : logId = LogId.events ∨ logId = LogId.stats ∨ logId = LogId.security) :
    (lens.headD 0 < 4 →
        write_to_log env logId lens
          = ⟨-(EINVAL : Int), some RejectPoint.shortTag, none⟩) ∧
    (4 ≤ lens.headD 0 →
        (write_to_log env logId lens).rejectedAt ≠ some RejectPoint.shortTag) ∧
    (4 ≤ lens.headD 0 → logId = LogId.events ∨ logId = LogId.stats →
        write_to_log env logId lens
          = ⟨(LogdWrite env.logd env.droppedIn logId lens).ret, none,
             some (LogdWrite env.logd env.droppedIn logId lens)⟩) := by
  refine ⟨?_, ?_, ?_⟩
  · intro hshort
    rw [List.headD_eq_head?] at hshort
    rcases hid with h | h | h <;> subst h <;>
      simp [write_to_log, hshort]
  · intro hlong
    rw [List.headD_eq_head?] at hlong
    have hlong' : ¬ (lens.head?.getD 0 < 4) := by omega
    rcases hid with h | h | h <;> subst h
    · simp [write_to_log, hlong']
    · simp [write_to_log, hlong']
    · simp only [write_to_log, if_neg (show ¬ (LogId.security = LogId.kernel) by decide),
        if_pos rfl, List.headD_eq_head?, if_neg hlong']
      split_ifs <;> simp
  · intro hlong hes
    rw [List.headD_eq_head?] at hlong
    have hlong' : ¬ (lens.head?.getD 0 < 4) := by omega
    rcases hes with h | h <;> subst h <;> simp [write_to_log, hlong']

/-- Witness for C5: a 2-byte first iovec on the events partition is
rejected with `-EINVAL`, and a 4-byte first iovec on events proceeds to
`LogdWrite`. -/
theorem binary_event_tag_check_witness :
    write_to_log ⟨⟨0, 0, 0, 0, []⟩, true,
        ⟨true, 0, true, WritevRes.ok 20, WritevRes.ok 20, WritevRes.ok 20⟩, 0⟩
        LogId.events [2]
      = ⟨-(EINVAL : Int), some RejectPoint.shortTag, none⟩ ∧
    write_to_log ⟨⟨0, 0, 0, 0, []⟩, true,
        ⟨true, 0, true, WritevRes.ok 20, WritevRes.ok 20, WritevRes.ok 20⟩, 0⟩
        LogId.events [4, 8]
      = ⟨(LogdWrite ⟨true, 0, true, WritevRes.ok 20, WritevRes.ok 20, WritevRes.ok 20⟩ 0
            LogId.events [4, 8]).ret, none,
         some (LogdWrite ⟨true, 0, true, WritevRes.ok 20, WritevRes.ok 20, WritevRes.ok 20⟩ 0
            LogId.events [4, 8])⟩ :=
  ⟨(binary_event_tag_check ⟨⟨0, 0, 0, 0, []⟩, true,
      ⟨true, 0, true, WritevRes.ok 20, WritevRes.ok 20, WritevRes.ok 20⟩, 0⟩
      LogId.events [2] (Or.inl rfl)).1 (by decide),
   (binary_event_tag_check ⟨⟨0, 0, 0, 0, []⟩, true,
      ⟨true, 0, true, WritevRes.ok 20, WritevRes.ok 20, WritevRes.ok 20⟩, 0⟩
      LogId.events [4, 8] (Or.inl rfl)).2.2 (by decide) (Or.inl rfl)⟩

/- ### `issueReinit` (`logd/main.cpp` lines 154-174) and the `--reinit`
branch of `main` (lines 190-193) -/

/-- The seven compared characters of the expected control-socket reply
(the code compares `sizeof("success") - 1` bytes). -/
def successPat : List Char := ['s', 'u', 'c', 'c', 'e', 's', 's']

/-- OS interactions of one `issueReinit` call.  An `Except.error e` models
a -1 syscall return with `errno = e`; `pollRes` carries the number of
descriptors ready within the 1000 ms timeout and `pollin` whether `POLLIN`
is set in `revents`; `readRes` carries the bytes `read` placed into the
7-byte zero-initialized reply buffer. -/
structure ReinitEnv where
  socketRes : Except Nat Nat
  writeRes : Except Nat Nat
  pollRes : Except Nat Nat
  pollin : Bool
  readRes : Except Nat (List Char)

/-- Embedding of `issueReinit`: connect to the reserved "logd" control
socket, write "reinit", poll with a 1000 ms timeout (zero ready
descriptors or a missing `POLLIN` yields `-ETIME`), read up to 7 bytes, and
return `strncmp(buffer, "success", 7) != 0` — 0 exactly when the buffer
holds "success". -/
def issueReinit (env : ReinitEnv) : Int :=
  match env.socketRes with
  | Except.error e => -(e : Int)
  | Except.ok _ =>
    match env.writeRes with
    | Except.error e => -(e : Int)
    | Except.ok _ =>
      match env.pollRes with
      | Except.error e => -(e : Int)
      | Except.ok n =>
        if n = 0 ∨ env.pollin = false then -(ETIME : Int)
        else
          match env.readRes with
          | Except.error e => -(e : Int)
          | Except.ok bytes =>
            let buffer :=
              bytes.take 7 ++ List.replicate (7 - (bytes.take 7).length) (Char.ofNat 0)
            if buffer = successPat then 0 else 1

/-- Embedding of the `--reinit` branch of `main`: with `--reinit` as the
first argument the process returns `issueReinit`'s result; otherwise the
daemon path is taken (`none` here). -/
def logd_main_reinit (argv1 : Option String) (env : ReinitEnv) : Option Int :=
  if argv1 = some "--reinit" then some (issueReinit env) else none

/-- The exit status observed by the parent of a `main` returning `r`: its
low 8 bits. -/
def exitStatus (r : Int) : Nat := (r % 256).toNat

/-- Linux errno values lie in 1..255, so `-errno` has nonzero low bits. -/
def errnoInRange {α : Type} : Except Nat α → Prop
  | Except.error e => 0 < e ∧ e < 256
  | Except.ok _ => True

def reinitEnvWellFormed (env : ReinitEnv) : Prop :=
  errnoInRange env.socketRes ∧ errnoInRange env.writeRes ∧ errnoInRange env.pollRes ∧
    errnoInRange env.readRes ∧
    (∀ bytes, env.readRes = Except.ok bytes → bytes.length ≤ 7)

/-- The success condition as the spec words it: connection and write
succeed, the reply arrives within the poll timeout with `POLLIN` set, and
the bytes read fill the compared buffer with "success" (a reply beginning
with "success"; `read` is capped at 7 bytes). -/
def reinitReplySuccess (env : ReinitEnv) : Prop :=
  (∃ fd, env.socketRes = Except.ok fd) ∧ (∃ n, env.writeRes = Except.ok n) ∧
    (∃ n, env.pollRes = Except.ok n ∧ 0 < n) ∧ env.pollin = true ∧
    env.readRes = Except.ok successPat

lemma neg_errno_exit_ne_zero {e : Nat} (h1 : 0 < e) (h2 : e < 256) :
    exitStatus (-(e : Int)) ≠ 0 := by
  unfold exitStatus
  omega

lemma pad_eq_success (bs : List Char) (h : bs.length ≤ 7) :
    (bs ++ List.replicate (7 - bs.length) (Char.ofNat 0) = successPat) ↔ bs = successPat := by
  constructor
  · intro he
    rcases Nat.lt_or_ge bs.length 7 with hlt | hge
    · exfalso
      have hmem : (Char.ofNat 0) ∈ bs ++ List.replicate (7 - bs.length) (Char.ofNat 0) :=
        List.mem_append_right _ (List.mem_replicate.mpr ⟨by omega, rfl⟩)
      rw [he] at hmem
      have hnot : (Char.ofNat 0) ∉ successPat := by decide
      exact hnot hmem
    · have h7 : bs.length = 7 := by omega
      rw [h7] at he
      simpa using he
  · intro he
    subst he
    simp [successPat]

/-- C6: invoking the daemon with single argument `--reinit` returns
`issueReinit`'s value, and the resulting exit status is 0 exactly when the
connection and write succeed, a reply arrives within the poll timeout, and
the reply begins with "success"; every failure (connect error, write
error, timeout, read error, other reply) yields a nonzero exit status. -/
theorem reinit_exit_status (env : ReinitEnv) (hwf : reinitEnvWellFormed env) :
    logd_main_reinit (some "--reinit") env = some (issueReinit env) ∧
    (exitStatus (issueReinit env) = 0 ↔ reinitReplySuccess env) := by
  refine ⟨by simp [logd_main_reinit], ?_⟩
  obtain ⟨sres, wres, pres, pin, rres⟩ := env
  obtain ⟨h1, h2, h3, h4, h5⟩ := hwf
  dsimp only [reinitReplySuccess]
  cases sres with
  | error e =>
    obtain ⟨he1, he2⟩ := h1
    simp only [issueReinit]
    constructor
    · intro h
      exact absurd h (neg_errno_exit_ne_zero he1 he2)
    · rintro ⟨⟨fd, hfd⟩, -⟩
      cases hfd
  | ok fd =>
    cases wres with
    | error e =>
      obtain ⟨he1, he2⟩ := h2
      simp only [issueReinit]
      constructor
      · intro h
        exact absurd h (neg_errno_exit_ne_zero he1 he2)
      · rintro ⟨-, ⟨n, hn⟩, -⟩
        cases hn
    | ok wn =>
      cases pres with
      | error e =>
        obtain ⟨he1, he2⟩ := h3
        simp only [issueReinit]
        constructor
        · intro h
          exact absurd h (neg_errno_exit_ne_zero he1 he2)
        · rintro ⟨-, -, ⟨n, hn, -⟩, -⟩
          cases hn
      | ok pn =>
        simp only [issueReinit]
        by_cases hp : pn = 0 ∨ pin = false
        · rw [if_pos hp]
          constructor
          · intro h
            exact absurd h (neg_errno_exit_ne_zero (by decide) (by decide))
          · rintro ⟨-, -, ⟨n, hn, hn0⟩, hpin, -⟩
            injection hn with hn
            rcases hp with hp | hp
            · omega
            · rw [hpin] at hp
              cases hp
        · rw [if_neg hp]
          push_neg at hp
          obtain ⟨hpn, hpf⟩ := hp
          have hpin : pin = true := by
            cases pin
            · exact absurd rfl hpf
            · rfl
          cases rres with
          | error e =>
            obtain ⟨he1, he2⟩ := h4
            constructor
            · intro h
              exact absurd h (neg_errno_exit_ne_zero he1 he2)
            · rintro ⟨-, -, -, -, hr⟩
              cases hr
          | ok bytes =>
            have hlen : bytes.length ≤ 7 := h5 bytes rfl
            have htake : bytes.take 7 = bytes := List.take_of_length_le hlen
            dsimp only
            rw [htake]
            by_cases hb : bytes ++ List.replicate (7 - bytes.length) (Char.ofNat 0) = successPat
            · rw [if_pos hb]
              have hbs : bytes = successPat := (pad_eq_success bytes hlen).mp hb
              subst hbs
              constructor
              · intro _
                exact ⟨⟨fd, rfl⟩, ⟨wn, rfl⟩, ⟨pn, rfl, by omega⟩, hpin, rfl⟩
              · intro _
                decide
            · rw [if_neg hb]
              constructor
              · intro h
                exact absurd h (by decide)
              · rintro ⟨-, -, -, -, hr⟩
                injection hr with hr
                exact absurd ((pad_eq_success bytes hlen).mpr hr) hb

/-- Witness for C6: a run in which the socket, write, poll and read all
succeed and the reply is "success". -/
theorem reinit_exit_status_witness :
    logd_main_reinit (some "--reinit")
        ⟨Except.ok 3, Except.ok 7, Except.ok 1, true, Except.ok successPat⟩
      = some (issueReinit
        ⟨Except.ok 3, Except.ok 7, Except.ok 1, true, Except.ok successPat⟩) ∧
    (exitStatus (issueReinit
        ⟨Except.ok 3, Except.ok 7, Except.ok 1, true, Except.ok successPat⟩) = 0 ↔
      reinitReplySuccess
        ⟨Except.ok 3, Except.ok 7, Except.ok 1, true, Except.ok successPat⟩) :=
  reinit_exit_status ⟨Except.ok 3, Except.ok 7, Except.ok 1, true, Except.ok successPat⟩
    ⟨trivial, trivial, trivial, trivial, by
      intro bytes h
      injection h with h
      subst h
      decide⟩

/- ### The `logpersist` shell tool (src/unnamed/part_000)

The tool requires the `logd.logpersistd.enable` property to be exactly
"true" (otherwise it prints "Disabled" and exits 1), scans its arguments
with a shift loop, then validates `--size` and `--buffer`.  `validBuffer`
is the oracle for `logcat -b <buffer> -g` succeeding. -/

structure LpState where
  size : String
  buffer : String
  clear : Bool
deriving DecidableEq

inductive LpParse where
  | exitCode (n : Nat)
  | parsed (st : LpState)
deriving DecidableEq

/-- Character-list prefix test for the shell glob patterns such as
`--size=*` (kernel-evaluable, unlike the byte-position prefix test). -/
def strHasPref (p a : String) : Bool :=
  p.data.isPrefixOf a.data

/-- Drop the first `n` characters of a string, used for stripping `--x=`
from `--x=value`. -/
def strDrop (a : String) (n : Nat) : String :=
  String.mk (a.data.drop n)

/-- A token matched by some case pattern of the argument loop. -/
def recognizedArg (a : String) : Bool :=
  a = "-c" || a = "--clear" ||
    strHasPref "--size=" a || strHasPref "--rotate-count=" a ||
    a = "-n" || a = "--size" || a = "--rotate-count" ||
    strHasPref "--buffer=" a ||
    a = "-b" || a = "--buffer" ||
    a = "-h" || a = "--help"

/-- Embedding of the argument `while` loop: value-taking flags consume the
following token (`shift` twice, an absent value read as empty);
`-h`/`--help` exits 0 after the usage text; any other unmatched token
prints "ERROR: bad argument" and exits 1. -/
def parseLoop : List String → LpState → LpParse
  | [], st => LpParse.parsed st
  | a :: rest, st =>
    if a = "-c" ∨ a = "--clear" then parseLoop rest { st with clear := true }
    else if (strHasPref "--size=" a) = true then
      parseLoop rest { st with size := strDrop a 7 }
    else if (strHasPref "--rotate-count=" a) = true then
      parseLoop rest { st with size := strDrop a 15 }
    else if a = "-n" ∨ a = "--size" ∨ a = "--rotate-count" then
      match rest with
      | [] => LpParse.parsed { st with size := "" }
      | b :: rest2 => parseLoop rest2 { st with size := b }
    else if (strHasPref "--buffer=" a) = true then
      parseLoop rest { st with buffer := strDrop a 9 }
    else if a = "-b" ∨ a = "--buffer" then
      match rest with
      | [] => LpParse.parsed { st with buffer := "" }
      | b :: rest2 => parseLoop rest2 { st with buffer := b }
    else if a = "-h" ∨ a = "--help" then LpParse.exitCode 0
    else LpParse.exitCode 1

/-- POSIX `test` integer operand: an optional sign followed by decimal
digits; anything else makes the comparison fail (the subshell exits
nonzero). -/
def shellInt (s : String) : Option Int :=
  match s.toList with
  | [] => none
  | '-' :: rest =>
    if rest ≠ [] ∧ rest.all Char.isDigit then
      some (-((rest.foldl (fun n c => n * 10 + (c.toNat - 48)) 0 : Nat) : Int))
    else none
  | '+' :: rest =>
    if rest ≠ [] ∧ rest.all Char.isDigit then
      some (((rest.foldl (fun n c => n * 10 + (c.toNat - 48)) 0 : Nat) : Int))
    else none
  | l =>
    if l.all Char.isDigit then
      some (((l.foldl (fun n c => n * 10 + (c.toNat - 48)) 0 : Nat) : Int))
    else none

/-- The size validation `( [ 0 -lt "$size" ] && [ 2048 -ge "$size" ] )`:
false when the operand is not an integer or lies outside 1..2048. -/
def sizeOk (s : String) : Bool :=
  match shellInt s with
  | some v => decide (0 < v ∧ v ≤ 2048)
  | none => false

/-- Embedding of the `logpersist` prologue: the enable-property check, the
argument loop (started at the defaults size "256", buffer "all"), the size
validation (the size is unset when empty or equal to the default "256"),
and the buffer validation (unset when empty or equal to the default "all",
otherwise the logcat oracle must accept it).  `Except.error c` models
`exit c`; `Except.ok` carries the validated state with unset values
cleared, on which the subcommand dispatch then runs. -/
def logpersist_validate (enable : String) (args : List String)
    (validBuffer : String → Bool) : Except Nat LpState :=
  if enable ≠ "true" then Except.error 1
  else
    match parseLoop args ⟨"256", "all", false⟩ with
    | LpParse.exitCode n => Except.error n
    | LpParse.parsed st =>
      if ¬(st.size = "" ∨ st.size = "256") ∧ sizeOk st.size = false then
        Except.error 1
      else if ¬(st.buffer = "" ∨ st.buffer = "all") ∧ validBuffer st.buffer = false then
        Except.error 1
      else
        Except.ok ⟨if st.size = "" ∨ st.size = "256" then "" else st.size,
                   if st.buffer = "" ∨ st.buffer = "all" then "" else st.buffer,
                   st.clear⟩

/-- C7: the tool exits 1 when the enable property is not "true"; an
argument matched by no case pattern (other than `-h`/`--help`, which exits
0) makes the loop exit 1 and the tool exit 1; a set `--size` that is not an
integer in 1..2048 exits 1; a set `--buffer` the logcat oracle refuses
exits 1; and a size equal to the default "256" or empty is treated as
unset and passes validation. -/
theorem logpersist_exit_codes (validBuffer : String → Bool) :
    (∀ (enable : String) (args : List String), enable ≠ "true" →
        logpersist_validate enable args validBuffer = Except.error 1) ∧
    (∀ (a : String) (rest : List String) (st : LpState),
        recognizedArg a = false → parseLoop (a :: rest) st = LpParse.exitCode 1) ∧
    (∀ args : List String, parseLoop args ⟨"256", "all", false⟩ = LpParse.exitCode 1 →
        logpersist_validate "true" args validBuffer = Except.error 1) ∧
    (∀ (args : List String) (st : LpState),
        parseLoop args ⟨"256", "all", false⟩ = LpParse.parsed st →
        st.size ≠ "" → st.size ≠ "256" → sizeOk st.size = false →
        logpersist_validate "true" args validBuffer = Except.error 1) ∧
    (∀ (args : List String) (st : LpState),
        parseLoop args ⟨"256", "all", false⟩ = LpParse.parsed st →
        (st.size = "" ∨ st.size = "256" ∨ sizeOk st.size = true) →
        st.buffer ≠ "" → st.buffer ≠ "all" → validBuffer st.buffer = false →
        logpersist_validate "true" args validBuffer = Except.error 1) ∧
    (∀ (args : List String) (st : LpState),
        parseLoop args ⟨"256", "all", false⟩ = LpParse.parsed st →
        (st.size = "" ∨ st.size = "256") → (st.buffer = "" ∨ st.buffer = "all") →
        logpersist_validate "true" args validBuffer = Except.ok ⟨"", "", st.clear⟩) := by
  refine ⟨?_, ?_, ?_, ?_, ?_, ?_⟩
  · intro enable args h
    unfold logpersist_validate
    rw [if_pos h]
  · intro a rest st h
    simp only [recognizedArg, Bool.or_eq_false_iff, decide_eq_false_iff_not] at h
    obtain ⟨⟨⟨⟨⟨⟨⟨⟨⟨⟨⟨h1, h2⟩, h3⟩, h4⟩, h5⟩, h6⟩, h7⟩, h8⟩, h9⟩, h10⟩, h11⟩, h12⟩ := h
    unfold parseLoop
    rw [if_neg (by tauto)]
    rw [if_neg (by simp [h3])]
    rw [if_neg (by simp [h4])]
    rw [if_neg (by tauto)]
    rw [if_neg (by simp [h8])]
    rw [if_neg (by tauto)]
    rw [if_neg (by tauto)]
  · intro args h
    unfold logpersist_validate
    rw [if_neg (by simp)]
    rw [h]
  · intro args st hp hs1 hs2 hsz
    unfold logpersist_validate
    rw [if_neg (by simp)]
    rw [hp]
    dsimp only
    rw [if_pos ⟨by tauto, hsz⟩]
  · intro args st hp hsok hb1 hb2 hbv
    unfold logpersist_validate
    rw [if_neg (by simp)]
    rw [hp]
    dsimp only
    rw [if_neg (by
      rintro ⟨hns, hszf⟩
      rcases hsok with h | h | h
      · exact hns (Or.inl h)
      · exact hns (Or.inr h)
      · rw [h] at hszf
        cases hszf)]
    rw [if_pos ⟨by tauto, hbv⟩]
  · intro args st hp hsu hbu
    unfold logpersist_validate
    rw [if_neg (by simp)]
    rw [hp]
    dsimp only
    rw [if_neg (by
      rintro ⟨hns, -⟩
      exact hns hsu)]
    rw [if_neg (by
      rintro ⟨hnb, -⟩
      exact hnb hbu)]
    rw [if_pos hsu, if_pos hbu]

/-- Witness for C7: the disabled case, a bad argument, an out-of-range
size, and a passing run with the default size. -/
theorem logpersist_exit_codes_witness :
    logpersist_validate "false" [] (fun _ => true) = Except.error 1 ∧
    parseLoop ["-x"] ⟨"256", "all", false⟩ = LpParse.exitCode 1 ∧
    logpersist_validate "true" ["--size=4096"] (fun _ => true) = Except.error 1 ∧
    logpersist_validate "true" ["--size=256"] (fun _ => true)
      = Except.ok ⟨"", "", false⟩ :=
  ⟨(logpersist_exit_codes (fun _ => true)).1 "false" [] (by decide),
   (logpersist_exit_codes (fun _ => true)).2.1 "-x" [] ⟨"256", "all", false⟩ (by decide),
   (logpersist_exit_codes (fun _ => true)).2.2.2.1 ["--size=4096"] ⟨"4096", "all", false⟩
     (by decide) (by decide) (by decide) (by decide),
   (logpersist_exit_codes (fun _ => true)).2.2.2.2.2 ["--size=256"] ⟨"256", "all", false⟩
     (by decide) (by decide) (by decide)⟩

/- ### `LogAudit::log` (`logd/LogAudit.cpp` lines 377-394)

The buffer is modelled as the character content of the NUL-terminated C
string at `buf` (no interior NUL), together with the `len` passed by the
caller.  `strstr` is the first-occurrence search over that string;
`logPrint` is an oracle receiving the formatted message, its integer
result returned unchanged. -/

def auditPat : List Char := [' ', 'a', 'u', 'd', 'i', 't', '(']

def typePat : List Char := ['t', 'y', 'p', 'e', '=']

/-- First index at which `pat` occurs in `s` (the `strstr` search). -/
def findSubstr (pat : List Char) : List Char → Option Nat
  | [] => if pat = [] then some 0 else none
  | c :: rest =>
    if pat.isPrefixOf (c :: rest) then some 0
    else (findSubstr pat rest).map (fun i => i + 1)

structure AuditEnv where
  logPrint : List Char → Int

structure AuditResult where
  rc : Int
  buf : List Char
  logged : Bool
deriving DecidableEq

/-- Whether the buffer holds an " audit(" occurrence starting within its
first `len` bytes (the condition under which the function proceeds). -/
def hasAuditWithin (s : List Char) (len : Nat) : Bool :=
  match findSubstr auditPat s with
  | some i => decide (i < len)
  | none => false

/-- Embedding of `LogAudit::log`: find " audit("; bail out with 0 when
absent or at or beyond `buf[len]`; write a NUL over the space, search the
now-terminated front half for "type=", format either "type... audit..."
or just the tail from `audit + 1`, log it, then write the space back. -/
def LogAudit.log (env : AuditEnv) (s : List Char) (len : Nat) : AuditResult :=
  match findSubstr auditPat s with
  | none => ⟨0, s, false⟩
  | some i =>
    if len ≤ i then ⟨0, s, false⟩
    else
      let s1 := s.set i (Char.ofNat 0)
      let pre := s1.takeWhile (fun c => c != Char.ofNat 0)
      let msg : List Char :=
        match findSubstr typePat pre with
        | some j =>
          if j < len then pre.drop j ++ [' '] ++ s.drop (i + 1)
          else s.drop (i + 1)
        | none => s.drop (i + 1)
      let rc := env.logPrint msg
      let s2 := s1.set i ' '
      ⟨rc, s2, true⟩

lemma set_of_getElem_self (s : List Char) : ∀ (i : Nat) (a : Char),
    s[i]? = some a → s.set i a = s := by
  induction s with
  | nil =>
    intro i a h
    cases h
  | cons c rest ih =>
    intro i a h
    cases i with
    | zero =>
      simp only [List.getElem?_cons_zero, Option.some.injEq] at h
      subst h
      rfl
    | succ j =>
      simp only [List.getElem?_cons_succ] at h
      simp [List.set_cons_succ, ih j a h]

lemma findSubstr_prefix (pat : List Char) : ∀ (s : List Char) (i : Nat),
    findSubstr pat s = some i → pat.isPrefixOf (s.drop i) = true := by
  intro s
  induction s with
  | nil =>
    intro i h
    unfold findSubstr at h
    split_ifs at h with hp
    injection h with h
    subst h
    simp [hp]
  | cons c rest ih =>
    intro i h
    unfold findSubstr at h
    split_ifs at h with hp
    · injection h with h
      subst h
      simpa using hp
    · cases hfind : findSubstr pat rest with
      | none =>
        rw [hfind] at h
        cases h
      | some j =>
        rw [hfind] at h
        injection h with h
        subst h
        simpa using ih j hfind

lemma audit_head_space (s : List Char) (i : Nat)
    (hf : findSubstr auditPat s = some i) : s[i]? = some ' ' := by
  have hpre := findSubstr_prefix auditPat s i hf
  rw [List.isPrefixOf_iff_prefix] at hpre
  obtain ⟨t, ht⟩ := hpre
  have h0 : (s.drop i)[0]? = some ' ' := by
    rw [← ht]
    rfl
  have h1 : (s.drop i)[0]? = s[i]? := by
    simp [List.getElem?_drop]
  rw [h1] at h0
  exact h0

/-- C10: `LogAudit::log` restores the buffer before returning (the NUL
written over the space at the " audit(" marker is overwritten with the
space again, and the matched character was that space), so the contents on
return are identical to those on entry; and when no " audit(" occurrence
starts within the first `len` bytes it returns 0 without logging
anything. -/
theorem logaudit_restores_buffer :
    (∀ (env : AuditEnv) (s : List Char) (len : Nat),
        (LogAudit.log env s len).buf = s) ∧
    (∀ (env : AuditEnv) (s : List Char) (len : Nat),
        hasAuditWithin s len = false → LogAudit.log env s len = ⟨0, s, false⟩) := by
  constructor
  · intro env s len
    unfold LogAudit.log
    cases hf : findSubstr auditPat s with
    | none => simp
    | some i =>
      simp only
      split_ifs with hle
      · rfl
      · dsimp only
        rw [List.set_set]
        exact set_of_getElem_self s i ' ' (audit_head_space s i hf)
  · intro env s len h
    unfold hasAuditWithin at h
    unfold LogAudit.log
    cases hf : findSubstr auditPat s with
    | none => simp
    | some i =>
      rw [hf] at h
      simp only [decide_eq_false_iff_not] at h
      simp only
      rw [if_pos (by omega)]

/-- Witness for C10: a concrete buffer without " audit(" is returned
unchanged with result 0 and nothing logged. -/
theorem logaudit_restores_buffer_witness :
    (LogAudit.log ⟨fun _ => 0⟩ ['a', 'b'] 2).buf = ['a', 'b'] ∧
    LogAudit.log ⟨fun _ => 0⟩ ['a', 'b'] 2 = ⟨0, ['a', 'b'], false⟩ :=
  ⟨logaudit_restores_buffer.1 ⟨fun _ => 0⟩ ['a', 'b'] 2,
   logaudit_restores_buffer.2 ⟨fun _ => 0⟩ ['a', 'b'] 2 (by decide)⟩
